import Mathlib

/-!
Shallow embedding of the KNN smart-contract classifier (`src/src/lib.rs`).

Modelling conventions:
* `f64` values are modelled as exact rationals (`ℚ`) for inputs and as real
  numbers (`ℝ`) once a square root has been taken; `u8` values as `ℕ`.
* Fallible operations (panicking `unwrap`, out-of-range indexing and slicing)
  return `Option`, with `none` standing for a panic.
* The sort comparator of the source is total on non-NaN floats, so the main
  embedding works over a `LinearOrder`; a separate NaN-aware model (`F`,
  `none` = NaN) captures the partiality of the comparator and of `==`.
* `env::log_str` output is modelled as an explicit list of emitted lines.
-/

set_option maxRecDepth 4000

namespace Knn

/-- A data point of the fixed dimension 2 used throughout `lib.rs`
(`[f64; 2]`), with exact rational coordinates. -/
abbrev Point : Type := ℚ × ℚ

/-- Constant `TOY_CANCER_TRAIN` from `lib.rs` line 8: the 10×2 cancer training set. -/
def TOY_CANCER_TRAIN : List Point :=
  [(1.4, 14.2), (7.3, 3.6), (15.8, 2.0), (7.0, 9.1), (13.9, 5.7),
   (16.6, 2.1), (18.1, 4.5), (8.1, 11.1), (11.9, 1.9), (12.8, 15.7)]

/-- Constant `TOY_CANCER_TARGET` from `lib.rs` line 9: the 10 binary labels. -/
def TOY_CANCER_TARGET : List ℕ := [0, 1, 1, 1, 0, 0, 1, 0, 1, 0]

/-- Constant `TOY_CUSTOMER_TRAIN` from `lib.rs` line 10. -/
def TOY_CUSTOMER_TRAIN : List Point :=
  [(11.4, 4.2), (17.3, 13.6), (5.8, 22.0), (7.0, 1.1), (13.9, 5.7),
   (16.6, 9.1), (8.1, 1.5), (1.1, 11.1), (2.9, 19.9), (22.8, 15.7)]

/-- Constant `TOY_CUSTOMER_TARGET` from `lib.rs` line 11. -/
def TOY_CUSTOMER_TARGET : List ℕ := [1, 0, 0, 1, 1, 0, 1, 1, 1, 0]

/-- The contract state (`struct KnnMachineLearning`): the single field
`param_k` (a `u8`, modelled as `ℕ`). -/
structure KnnMachineLearning where
  param_k : ℕ
deriving DecidableEq, Repr

/-- Constructor `KnnMachineLearning::new` (lines 38-43): asserts
`(k % 2 != 0) & (k > 0) & (k <= 15)`; a failed assertion panics and no
contract state is produced (`none`). -/
def new (k : ℕ) : Option KnnMachineLearning :=
  if (k % 2 ≠ 0) ∧ (k > 0) ∧ (k ≤ 15) then some ⟨k⟩ else none

/-- Source `sort_and_argsort` (lines 101-113), generic over the element order as the
source is over non-NaN `f64`: sort a copy ascending, then for each sorted
slot take `position` of the first original element equal to the sorted value
(`v_original.iter().position(|&r| r == v[ii])`, i.e. `List.indexOf`). -/
def sort_and_argsort {α : Type} [LinearOrder α] [DecidableEq α]
    (vec : List α) : List ℕ × List α :=
  let v := vec.insertionSort (· ≤ ·)
  (v.map (fun x => List.indexOf x vec), v)

/-- The inner summation of `calc_euclidean_dist` (lines 90-93): the sum over
both dimensions of the squared coordinate differences, exact in `ℚ`. -/
def sum_sq_diff (obs pt : Point) : ℚ :=
  (obs.1 - pt.1) ^ 2 + (obs.2 - pt.2) ^ 2

/-- Square root of a rational, landing in `ℝ` (`f64::sqrt`). -/
noncomputable def sqrtQ (q : ℚ) : ℝ := Real.sqrt (q : ℝ)

/-- The list of squared distances; `calc_euclidean_dist` is its image under
`sqrtQ`. Kept separate because it is exact (decidable) rational data. -/
def calc_sq_dist (arr_train : List Point) (pt : Point) : List ℚ :=
  arr_train.map (fun obs => sum_sq_diff obs pt)

/-- Source `calc_euclidean_dist` (lines 87-98): for each training observation, push
`sqrt` of the sum of squared per-dimension differences to the query point. -/
noncomputable def calc_euclidean_dist (arr_train : List Point) (pt : Point) :
    List ℝ :=
  (calc_sq_dist arr_train pt).map sqrtQ

/-- Line 73, `indices.into_iter().map(|x| arr_target[x]).collect()`: index
into the targets at each position; an out-of-range index panics (`none`). -/
def lookup_targets (arr_target : List ℕ) : List ℕ → Option (List ℕ)
  | [] => some []
  | i :: is =>
    match arr_target.get? i, lookup_targets arr_target is with
    | some t, some ts => some (t :: ts)
    | _, _ => none

/-- Lines 75-83 of `classify_test_point` (the spec's `MajorityVoter.vote`):
slice the first `k` sorted targets (panicking — `none` — when `k` exceeds the
available length, as `sorted_targets[0..k]` does), count the labels equal to
`1` and to `0`, and return `1` iff the former count is strictly larger. -/
def vote (labels : List ℕ) (k : ℕ) : Option ℕ :=
  if k ≤ labels.length then
    let first_k := labels.take k
    let n_1 := (first_k.filter (fun n => n == 1)).length
    let n_0 := (first_k.filter (fun n => n == 0)).length
    some (if n_1 > n_0 then 1 else 0)
  else none

/-- Source `classify_test_point` (lines 67-84): distances, argsort, re-order the
targets by the argsort indices, then majority vote over the first `k`. -/
noncomputable def classify_test_point (self : KnnMachineLearning)
    (arr_train : List Point) (arr_target : List ℕ) (pt : Point) : Option ℕ :=
  let dist := calc_euclidean_dist arr_train pt
  let indices := (sort_and_argsort dist).1
  match lookup_targets arr_target indices with
  | none => none
  | some sorted_targets => vote sorted_targets self.param_k

/-- The computable mirror of `classify_test_point` working on the squared
distances; `classify_test_point_eq_sq` below proves it extensionally equal. -/
def classify_sq (self : KnnMachineLearning) (arr_train : List Point)
    (arr_target : List ℕ) (pt : Point) : Option ℕ :=
  let dist := calc_sq_dist arr_train pt
  let indices := (sort_and_argsort dist).1
  match lookup_targets arr_target indices with
  | none => none
  | some sorted_targets => vote sorted_targets self.param_k

/-- The diagnostic emitted for an unrecognized dataset selector (line 60). -/
def unknownMsg : String := "Data can either be: 'cancer' or 'customer' data. Re-specify."

/-- Source `run_analysis` (lines 48-64). The result is the triple of the contract
state after the call (the body never assigns to `self`), the `env::log_str`
lines emitted, and the returned `u8` (`none` when `classify_test_point`
panicked). For an unrecognized selector, `ans` keeps its initialisation `0`
and only the diagnostic is logged. -/
noncomputable def run_analysis (self : KnnMachineLearning) (data_set : String)
    (test_point : Point) : KnnMachineLearning × List String × Option ℕ :=
  if data_set = "cancer" then
    (self, ["Working with cancer dataset."],
      classify_test_point self TOY_CANCER_TRAIN TOY_CANCER_TARGET test_point)
  else if data_set = "customer" then
    (self, ["Working with customer dataset."],
      classify_test_point self TOY_CUSTOMER_TRAIN TOY_CUSTOMER_TARGET test_point)
  else
    (self, [unknownMsg], some 0)

/-!
NaN-aware model of the `f64` operations, used to settle the partiality of
`sort_and_argsort` on NaN inputs: a value of type `F` is `none` for NaN and
`some x` for a non-NaN real `x`.
-/

/-- NaN-aware model of an `f64` value: `none` is NaN. -/
abbrev F : Type := Option ℝ

/-- Model of `f64` subtraction: NaN absorbing. -/
def fsub : F → F → F
  | some a, some b => some (a - b)
  | _, _ => none

/-- Model of `f64` addition: NaN absorbing. -/
def fadd : F → F → F
  | some a, some b => some (a + b)
  | _, _ => none

/-- Model of `f64::powi(2)`: NaN absorbing. -/
def fsq : F → F
  | some a => some (a ^ 2)
  | none => none

/-- Model of `f64::sqrt`: NaN on NaN or on a negative argument. -/
noncomputable def fsqrt : F → F
  | some a => if a < 0 then none else some (Real.sqrt a)
  | none => none

/-- Model of the sort comparator `a.partial_cmp(b).unwrap()` of line 105: a
comparison involving NaN has no ordering, so the `unwrap` panics (`none`);
otherwise the model reports whether `a ≤ b`. -/
noncomputable def fle : F → F → Option Bool
  | some a, some b => some (decide (a ≤ b))
  | _, _ => none

/-- Model of `f64` equality `==` used by `position` on line 109: NaN compares
unequal to everything, including itself. -/
noncomputable def feq : F → F → Bool
  | some a, some b => decide (a = b)
  | _, _ => false

/-- Insertion step of the NaN-aware sort: a panicking comparison aborts. -/
noncomputable def orderedInsertF (a : F) : List F → Option (List F)
  | [] => some [a]
  | b :: l =>
    match fle a b with
    | none => none
    | some true => some (a :: b :: l)
    | some false => (orderedInsertF a l).map (fun t => b :: t)

/-- NaN-aware model of `v.sort_by(|a, b| a.partial_cmp(b).unwrap())`
(line 105): the sort panics (`none`) as soon as one comparison involves
NaN. -/
noncomputable def insertionSortF : List F → Option (List F)
  | [] => some []
  | a :: l => (insertionSortF l).bind (orderedInsertF a)

/-- NaN-aware model of the argsort loop (lines 108-111): for each sorted
value, `position(|&r| r == v[ii]).unwrap()`; a missing position (as with NaN,
which is `==` to nothing) panics (`none`). -/
noncomputable def argsortF (vec : List F) (v : List F) : Option (List ℕ) :=
  v.mapM (fun x => vec.findIdx? (fun r => feq r x))

/-- NaN-aware model of `sort_and_argsort` (lines 101-113). -/
noncomputable def sort_and_argsortF (vec : List F) : Option (List ℕ × List F) :=
  (insertionSortF vec).bind (fun v => (argsortF vec v).map (fun inds => (inds, v)))

/-- NaN-aware model of `calc_euclidean_dist` (lines 87-98). -/
noncomputable def calc_euclidean_distF (arr_train : List (F × F)) (pt : F × F) :
    List F :=
  arr_train.map (fun obs =>
    fsqrt (fadd (fsq (fsub obs.1 pt.1)) (fsq (fsub obs.2 pt.2))))

/-- NaN-aware model of `classify_test_point` (lines 67-84). -/
noncomputable def classify_test_pointF (self : KnnMachineLearning)
    (arr_train : List (F × F)) (arr_target : List ℕ) (pt : F × F) : Option ℕ :=
  let dist := calc_euclidean_distF arr_train pt
  match sort_and_argsortF dist with
  | none => none
  | some (indices, _) =>
    match lookup_targets arr_target indices with
    | none => none
    | some sorted_targets => vote sorted_targets self.param_k

/-- Embed an exact-rational training set into the NaN-aware value model. -/
def toF (l : List Point) : List (F × F) :=
  l.map (fun p => ((some (p.1 : ℝ) : F), (some (p.2 : ℝ) : F)))

/-- Rounding to two decimals as in the repository's unit test
`test_calc_euclidean_dist` (`(elem * 100.0).round() / 100.0`); `f64::round`
rounds half away from zero, and the spec's distance values are nonnegative,
so this is the floor of `x * 100 + 1/2`, divided back by `100`. -/
noncomputable def round2 (x : ℝ) : ℝ := (⌊x * 100 + 1 / 2⌋ : ℤ) / 100

/-!
Bridge lemmas: `sort_and_argsort` commutes with a map that reflects the
order on the elements of its argument, and in particular with `sqrtQ` on the
(nonnegative) squared distances, which makes the real-valued pipeline
computable on concrete inputs via `classify_sq`.
-/

theorem indexOf_map_of_eq_iff {α β : Type} [DecidableEq α] [DecidableEq β]
    (f : α → β) (x : α) :
    ∀ l : List α, (∀ b ∈ l, (f b = f x ↔ b = x)) →
      List.indexOf (f x) (l.map f) = List.indexOf x l := by
  intro l
  induction l with
  | nil => intro _; rfl
  | cons b t ih =>
    intro h
    by_cases hbx : b = x
    · rw [List.map_cons, List.indexOf_cons_eq _ (by rw [hbx]),
        List.indexOf_cons_eq _ hbx]
    · have hfb : f b ≠ f x := fun hc => hbx ((h b (List.mem_cons_self b t)).1 hc)
      rw [List.map_cons, List.indexOf_cons_ne _ hfb, List.indexOf_cons_ne _ hbx,
        ih (fun c hc => h c (List.mem_cons_of_mem b hc))]

theorem sort_and_argsort_map {α β : Type} [LinearOrder α] [LinearOrder β]
    [DecidableEq α] [DecidableEq β] (f : α → β) (l : List α)
    (hf : ∀ a ∈ l, ∀ b ∈ l, a ≤ b ↔ f a ≤ f b) :
    sort_and_argsort (l.map f)
      = ((sort_and_argsort l).1, (sort_and_argsort l).2.map f) := by
  have hsort : (l.insertionSort (· ≤ ·)).map f = (l.map f).insertionSort (· ≤ ·) :=
    List.map_insertionSort (· ≤ ·) (· ≤ ·) f l hf
  have heq : ∀ x ∈ l, ∀ b ∈ l, (f b = f x ↔ b = x) := by
    intro x hx b hb
    rw [le_antisymm_iff, le_antisymm_iff, ← hf b hb x hx, ← hf x hx b hb]
  unfold sort_and_argsort
  refine Prod.ext ?_ ?_
  · show ((l.map f).insertionSort (· ≤ ·)).map
        (fun y => List.indexOf y (l.map f))
      = (l.insertionSort (· ≤ ·)).map (fun x => List.indexOf x l)
    rw [← hsort, List.map_map]
    refine List.map_congr_left ?_
    intro x hx
    have hxl : x ∈ l := (List.mem_insertionSort (· ≤ ·)).1 hx
    exact indexOf_map_of_eq_iff f x l (heq x hxl)
  · exact hsort.symm

theorem calc_sq_dist_nonneg (arr_train : List Point) (pt : Point) :
    ∀ q ∈ calc_sq_dist arr_train pt, 0 ≤ q := by
  intro q hq
  simp only [calc_sq_dist, List.mem_map] at hq
  obtain ⟨obs, _, rfl⟩ := hq
  unfold sum_sq_diff
  positivity

theorem sqrtQ_le_iff {a b : ℚ} (hb : 0 ≤ b) : a ≤ b ↔ sqrtQ a ≤ sqrtQ b := by
  unfold sqrtQ
  rw [Real.sqrt_le_sqrt_iff (by exact_mod_cast hb), Rat.cast_le]

theorem sort_and_argsort_dist (arr_train : List Point) (pt : Point) :
    sort_and_argsort (calc_euclidean_dist arr_train pt)
      = ((sort_and_argsort (calc_sq_dist arr_train pt)).1,
         (sort_and_argsort (calc_sq_dist arr_train pt)).2.map sqrtQ) := by
  unfold calc_euclidean_dist
  exact sort_and_argsort_map sqrtQ (calc_sq_dist arr_train pt)
    (fun a _ b hb => sqrtQ_le_iff (calc_sq_dist_nonneg arr_train pt b hb))

theorem classify_test_point_eq_sq (self : KnnMachineLearning)
    (arr_train : List Point) (arr_target : List ℕ) (pt : Point) :
    classify_test_point self arr_train arr_target pt
      = classify_sq self arr_train arr_target pt := by
  simp only [classify_test_point, classify_sq, sort_and_argsort_dist]

theorem run_analysis_cancer (self : KnnMachineLearning) (pt : Point) :
    run_analysis self "cancer" pt
      = (self, ["Working with cancer dataset."],
         classify_sq self TOY_CANCER_TRAIN TOY_CANCER_TARGET pt) := by
  rw [run_analysis, if_pos rfl, classify_test_point_eq_sq]

theorem run_analysis_customer (self : KnnMachineLearning) (pt : Point) :
    run_analysis self "customer" pt
      = (self, ["Working with customer dataset."],
         classify_sq self TOY_CUSTOMER_TRAIN TOY_CUSTOMER_TARGET pt) := by
  rw [run_analysis, if_neg (by decide), if_pos rfl, classify_test_point_eq_sq]

/-!
Claim theorems.
-/

/-- C1: the claim states that the indices returned by `sort_and_argsort`
always form a permutation of `0..len(values)`, with a first-unused-index
tie-break between equal values. The code instead re-finds the first matching
index for every sorted slot without excluding already-used positions: on the
input `[1.0, 1.0]` it returns the indices `[0, 0]`, which is not a
permutation of `0..2` (the claimed behaviour would give `[0, 1]`). -/
theorem sort_and_argsort_duplicates_not_perm :
    sort_and_argsort ([1.0, 1.0] : List ℚ) = ([0, 0], [1.0, 1.0]) ∧
    ¬ (sort_and_argsort ([1.0, 1.0] : List ℚ)).1.Perm (List.range 2) := by
  have h : sort_and_argsort ([1.0, 1.0] : List ℚ) = ([0, 0], [1.0, 1.0]) := by
    norm_num [sort_and_argsort, List.insertionSort, List.orderedInsert, List.indexOf,
      List.findIdx, List.findIdx.go, cond_eq_if, beq_iff_eq]
  exact ⟨h, by rw [h]; decide⟩

/-- C2: calling `run_analysis` with a dataset selector other than `"cancer"`
or `"customer"` performs no classification: the result does not depend on the
query point, the only log line is the diagnostic, the returned value is the
non-fault `some 0` (no panic), the contract state is unchanged, and the
emitted diagnostic differs from the log line of every successful
classification call. -/
theorem run_analysis_unknown_dataset (self : KnnMachineLearning) (s : String)
    (pt : Point) (h1 : s ≠ "cancer") (h2 : s ≠ "customer") :
    run_analysis self s pt = (self, [unknownMsg], some 0) ∧
    (∀ pt2 : Point, run_analysis self s pt2 = run_analysis self s pt) ∧
    (∀ pt2 : Point, (run_analysis self "cancer" pt2).2.1 ≠ [unknownMsg] ∧
      (run_analysis self "customer" pt2).2.1 ≠ [unknownMsg]) := by
  have key : ∀ pt2 : Point, run_analysis self s pt2 = (self, [unknownMsg], some 0) := by
    intro pt2
    rw [run_analysis, if_neg h1, if_neg h2]
  refine ⟨key pt, fun pt2 => (key pt2).trans (key pt).symm, fun pt2 => ⟨?_, ?_⟩⟩
  · rw [run_analysis_cancer]
    simp only [unknownMsg]
    decide
  · rw [run_analysis_customer]
    simp only [unknownMsg]
    decide

/-- C2 witness: the unknown selector of the repository's own test. -/
theorem run_analysis_unknown_dataset_witness :
    run_analysis ⟨3⟩ "wrong dataset" (2.2, 14.0) = (⟨3⟩, [unknownMsg], some 0) :=
  (run_analysis_unknown_dataset ⟨3⟩ "wrong dataset" (2.2, 14.0)
    (by decide) (by decide)).1

/-- C3: construction succeeds exactly for odd `k` with `1 ≤ k ≤ 15`,
producing a classifier whose `param_k` is that `k`; otherwise the `assert`
fails and no classifier is produced. -/
theorem new_succeeds_iff (k : ℕ) :
    (Odd k ∧ 1 ≤ k ∧ k ≤ 15 → new k = some ⟨k⟩) ∧
    (¬ (Odd k ∧ 1 ≤ k ∧ k ≤ 15) → new k = none) := by
  constructor
  · intro h
    have hk : k % 2 = 1 := Nat.odd_iff.1 h.1
    rw [new, if_pos ⟨by omega, by omega, h.2.2⟩]
  · intro h
    rw [new, if_neg]
    intro hc
    exact h ⟨Nat.odd_iff.2 (by omega), by omega, hc.2.2⟩

/-- C3 witness: `k = 3` is accepted, `k = 4` (even) and `k = 17` (out of
range) are rejected. -/
theorem new_succeeds_iff_witness :
    new 3 = some ⟨3⟩ ∧ new 4 = none ∧ new 17 = none :=
  ⟨(new_succeeds_iff 3).1 ⟨⟨1, by decide⟩, by decide, by decide⟩,
   (new_succeeds_iff 4).2 (fun h => by exact absurd (Nat.odd_iff.1 h.1) (by decide)),
   (new_succeeds_iff 17).2 (fun h => by omega)⟩

/-- C4: on a binary label list of length at least `k`, the vote looks only at
the first `k` labels, returns `1` exactly when the count of `1`s among them
exceeds the count of `0`s and `0` otherwise, and the result is always the
label `0` or `1`. -/
theorem vote_majority_first_k (labels : List ℕ) (k : ℕ)
    (_hbin : ∀ l ∈ labels, l = 0 ∨ l = 1) (hk : k ≤ labels.length) :
    vote labels k
      = some (if (labels.take k).count 1 > (labels.take k).count 0 then 1 else 0) ∧
    (vote labels k = some 0 ∨ vote labels k = some 1) := by
  have hcount : ∀ a : ℕ, ((labels.take k).filter (fun n => n == a)).length
      = (labels.take k).count a := by
    intro a
    rw [List.count, List.countP_eq_length_filter]
  have hv : vote labels k
      = some (if (labels.take k).count 1 > (labels.take k).count 0 then 1 else 0) := by
    rw [vote, if_pos hk]
    rw [← hcount 1, ← hcount 0]
  refine ⟨hv, ?_⟩
  rw [hv]
  by_cases hc : (labels.take k).count 1 > (labels.take k).count 0
  · exact Or.inr (by rw [if_pos hc])
  · exact Or.inl (by rw [if_neg hc])

/-- C4 witness: the three nearest-neighbour labels of the spec's concrete
scenario. -/
theorem vote_majority_first_k_witness :
    vote [1, 0, 1] 3
      = some (if ([1, 0, 1].take 3).count 1 > ([1, 0, 1].take 3).count 0 then 1 else 0) ∧
    (vote [1, 0, 1] 3 = some 0 ∨ vote [1, 0, 1] 3 = some 1) :=
  vote_majority_first_k [1, 0, 1] 3 (by decide) (by decide)

theorem getD_of_lt {α : Type} (l : List α) (n : ℕ) (d : α) (h : n < l.length) :
    l.getD n d = l.get ⟨n, h⟩ := by
  rw [List.getD_eq_getElem?_getD, List.getElem?_eq_getElem h, Option.getD_some,
    List.get_eq_getElem]

/-- C5: for every input list, the second component of `sort_and_argsort` is
the ascending (non-decreasing) sort of the input — sorted and a permutation
of the input — and at every position `i` the returned index is in range and
satisfies `values[indices[i]] = sorted_values[i]`. -/
theorem sort_and_argsort_sorted_aligned {α : Type} [LinearOrder α] [DecidableEq α]
    (vec : List α) (d : α) :
    List.Sorted (· ≤ ·) (sort_and_argsort vec).2 ∧
    (sort_and_argsort vec).2.Perm vec ∧
    (sort_and_argsort vec).1.length = vec.length ∧
    ∀ i, i < vec.length →
      (sort_and_argsort vec).1.getD i 0 < vec.length ∧
      vec.getD ((sort_and_argsort vec).1.getD i 0) d
        = (sort_and_argsort vec).2.getD i d := by
  simp only [sort_and_argsort]
  refine ⟨List.sorted_insertionSort _ _, List.perm_insertionSort _ _, by simp, ?_⟩
  intro i hi
  have hi2 : i < (vec.insertionSort (· ≤ ·)).length := by
    rw [List.length_insertionSort]
    exact hi
  have hi3 : i < ((vec.insertionSort (· ≤ ·)).map (fun x => List.indexOf x vec)).length := by
    rw [List.length_map]
    exact hi2
  have hx : (vec.insertionSort (· ≤ ·)).get ⟨i, hi2⟩ ∈ vec := by
    rw [← List.mem_insertionSort (· ≤ ·)]
    exact (vec.insertionSort (· ≤ ·)).get_mem _ _
  have hidx : ((vec.insertionSort (· ≤ ·)).map (fun x => List.indexOf x vec)).getD i 0
      = List.indexOf ((vec.insertionSort (· ≤ ·)).get ⟨i, hi2⟩) vec := by
    rw [getD_of_lt _ _ _ hi3, List.get_eq_getElem, List.getElem_map, List.get_eq_getElem]
  have hbound : List.indexOf ((vec.insertionSort (· ≤ ·)).get ⟨i, hi2⟩) vec < vec.length :=
    List.indexOf_lt_length.2 hx
  refine ⟨by rw [hidx]; exact hbound, ?_⟩
  rw [hidx, getD_of_lt _ _ _ hbound, getD_of_lt _ _ _ hi2, List.indexOf_get]

/-- C5 witness: the vector of the repository's `test_sort_and_argsort`. -/
theorem sort_and_argsort_sorted_aligned_witness :
    (sort_and_argsort ([1.1, 7.1, 4.1, 2.1] : List ℚ)).1.getD 1 0
        < ([1.1, 7.1, 4.1, 2.1] : List ℚ).length ∧
    ([1.1, 7.1, 4.1, 2.1] : List ℚ).getD
        ((sort_and_argsort ([1.1, 7.1, 4.1, 2.1] : List ℚ)).1.getD 1 0) 0
      = (sort_and_argsort ([1.1, 7.1, 4.1, 2.1] : List ℚ)).2.getD 1 0 :=
  (sort_and_argsort_sorted_aligned ([1.1, 7.1, 4.1, 2.1] : List ℚ) 0).2.2.2 1 (by decide)

/-- C6: the distance list has one entry per training point, and the entry at
each index `i` is the square root of the sum over both dimensions of the
squared differences between the coordinates of training point `i` and the
query point; every entry is nonnegative. -/
theorem calc_euclidean_dist_formula (arr_train : List Point) (pt : Point)
    (i : ℕ) (hi : i < arr_train.length) (dP : Point) :
    (calc_euclidean_dist arr_train pt).length = arr_train.length ∧
    (calc_euclidean_dist arr_train pt).getD i 0
      = Real.sqrt ((((arr_train.getD i dP).1 : ℝ) - (pt.1 : ℝ)) ^ 2
          + (((arr_train.getD i dP).2 : ℝ) - (pt.2 : ℝ)) ^ 2) ∧
    0 ≤ (calc_euclidean_dist arr_train pt).getD i 0 := by
  have hlen : (calc_euclidean_dist arr_train pt).length = arr_train.length := by
    simp [calc_euclidean_dist, calc_sq_dist]
  have hi2 : i < (calc_euclidean_dist arr_train pt).length := by rw [hlen]; exact hi
  have hval : (calc_euclidean_dist arr_train pt).getD i 0
      = Real.sqrt ((((arr_train.getD i dP).1 : ℝ) - (pt.1 : ℝ)) ^ 2
          + (((arr_train.getD i dP).2 : ℝ) - (pt.2 : ℝ)) ^ 2) := by
    rw [getD_of_lt _ _ _ hi2, getD_of_lt _ _ _ hi]
    simp only [calc_euclidean_dist, calc_sq_dist, List.get_eq_getElem, List.getElem_map]
    unfold sqrtQ sum_sq_diff
    congr 1
    push_cast
    ring
  exact ⟨hlen, hval, by rw [hval]; exact Real.sqrt_nonneg _⟩

/-- C6 witness: the first cancer training point against the spec's query. -/
theorem calc_euclidean_dist_formula_witness :
    (calc_euclidean_dist TOY_CANCER_TRAIN (15.8, 2.0)).length = TOY_CANCER_TRAIN.length ∧
    (calc_euclidean_dist TOY_CANCER_TRAIN (15.8, 2.0)).getD 0 0
      = Real.sqrt ((((TOY_CANCER_TRAIN.getD 0 (0, 0)).1 : ℝ) - ((15.8 : ℚ) : ℝ)) ^ 2
          + (((TOY_CANCER_TRAIN.getD 0 (0, 0)).2 : ℝ) - ((2.0 : ℚ) : ℝ)) ^ 2) ∧
    0 ≤ (calc_euclidean_dist TOY_CANCER_TRAIN (15.8, 2.0)).getD 0 0 :=
  calc_euclidean_dist_formula TOY_CANCER_TRAIN (15.8, 2.0) 0 (by decide) (0, 0)

/-- C8: `run_analysis` never mutates the contract state: whatever the dataset
selector and query point, and whether the call succeeds, reports an unknown
dataset, or faults inside classification, the state — and in particular
`param_k` — after the call equals the state before. -/
theorem run_analysis_preserves_param_k (self : KnnMachineLearning)
    (data_set : String) (pt : Point) :
    (run_analysis self data_set pt).1 = self ∧
    (run_analysis self data_set pt).1.param_k = self.param_k := by
  rw [run_analysis]
  split_ifs <;> exact ⟨rfl, rfl⟩

theorem mem_argsort_lt {α : Type} [LinearOrder α] [DecidableEq α] (vec : List α) :
    ∀ x ∈ (sort_and_argsort vec).1, x < vec.length := by
  intro x hx
  simp only [sort_and_argsort, List.mem_map] at hx
  obtain ⟨y, hy, rfl⟩ := hx
  exact List.indexOf_lt_length.2 ((List.mem_insertionSort (· ≤ ·)).1 hy)

theorem lookup_targets_of_bounds (target : List ℕ) :
    ∀ inds : List ℕ, (∀ x ∈ inds, x < target.length) →
      ∃ ts, lookup_targets target inds = some ts ∧ ts.length = inds.length := by
  intro inds
  induction inds with
  | nil => exact fun _ => ⟨[], rfl, rfl⟩
  | cons i is ih =>
    intro h
    obtain ⟨ts, hts, htslen⟩ := ih (fun x hx => h x (List.mem_cons_of_mem i hx))
    have hi : i < target.length := h i (List.mem_cons_self i is)
    refine ⟨target.get ⟨i, hi⟩ :: ts, ?_, by simp [htslen]⟩
    rw [lookup_targets, List.get?_eq_get hi, hts]

theorem classify_sq_ne_none_iff (self : KnnMachineLearning)
    (arr_train : List Point) (arr_target : List ℕ) (pt : Point)
    (hlen : arr_target.length = arr_train.length) :
    classify_sq self arr_train arr_target pt ≠ none
      ↔ self.param_k ≤ arr_train.length := by
  have hsq : (calc_sq_dist arr_train pt).length = arr_train.length := by
    simp [calc_sq_dist]
  have hbounds : ∀ x ∈ (sort_and_argsort (calc_sq_dist arr_train pt)).1,
      x < arr_target.length := by
    intro x hx
    rw [hlen, ← hsq]
    exact mem_argsort_lt _ x hx
  obtain ⟨ts, hts, htslen⟩ := lookup_targets_of_bounds arr_target _ hbounds
  have hindlen : (sort_and_argsort (calc_sq_dist arr_train pt)).1.length
      = arr_train.length := by
    simp only [sort_and_argsort, List.length_map, List.length_insertionSort]
    exact hsq
  have hts2 : ts.length = arr_train.length := by rw [htslen, hindlen]
  simp only [classify_sq]
  rw [hts]
  show vote ts self.param_k ≠ none ↔ self.param_k ≤ arr_train.length
  rw [vote]
  by_cases h : self.param_k ≤ ts.length
  · rw [if_pos h]
    exact ⟨fun _ => hts2 ▸ h, fun _ => Option.some_ne_none _⟩
  · rw [if_neg h]
    exact ⟨fun hc => absurd rfl hc, fun hk => absurd (hts2 ▸ hk) h⟩

theorem cancer_len_eq : TOY_CANCER_TARGET.length = TOY_CANCER_TRAIN.length := by decide

theorem customer_len_eq : TOY_CUSTOMER_TARGET.length = TOY_CUSTOMER_TRAIN.length := by decide

theorem cancer_train_len : TOY_CANCER_TRAIN.length = 10 := by decide

theorem customer_train_len : TOY_CUSTOMER_TRAIN.length = 10 := by decide

/-- C9: construction accepts `k = 11, 13, 15`; both registry label sets have
exactly 10 entries; for any `k > 10` a classification call on either known
dataset faults (the slice of the first `k` sorted labels is out of range);
and any constructed classifier that classifies successfully on a known
dataset has `k` among `1, 3, 5, 7, 9`. -/
theorem k_gt_ten_classification_faults :
    (new 11 ≠ none ∧ new 13 ≠ none ∧ new 15 ≠ none) ∧
    (TOY_CANCER_TARGET.length = 10 ∧ TOY_CUSTOMER_TARGET.length = 10) ∧
    (∀ (k : ℕ) (pt : Point), 10 < k →
      (run_analysis ⟨k⟩ "cancer" pt).2.2 = none ∧
      (run_analysis ⟨k⟩ "customer" pt).2.2 = none) ∧
    (∀ (k : ℕ) (c : KnnMachineLearning) (pt : Point) (ds : String),
      new k = some c → (ds = "cancer" ∨ ds = "customer") →
      (run_analysis c ds pt).2.2 ≠ none →
      k = 1 ∨ k = 3 ∨ k = 5 ∨ k = 7 ∨ k = 9) := by
  refine ⟨⟨by decide, by decide, by decide⟩, ⟨by decide, by decide⟩, ?_, ?_⟩
  · intro k pt hk
    constructor
    · rw [run_analysis_cancer]
      dsimp only
      by_contra h
      have hle := (classify_sq_ne_none_iff ⟨k⟩ TOY_CANCER_TRAIN
        TOY_CANCER_TARGET pt cancer_len_eq).1 h
      rw [cancer_train_len] at hle
      have hk10 : k ≤ 10 := hle
      omega
    · rw [run_analysis_customer]
      dsimp only
      by_contra h
      have hle := (classify_sq_ne_none_iff ⟨k⟩ TOY_CUSTOMER_TRAIN
        TOY_CUSTOMER_TARGET pt customer_len_eq).1 h
      rw [customer_train_len] at hle
      have hk10 : k ≤ 10 := hle
      omega
  · intro k c pt ds hnew hds hne
    have hcond : ((k % 2 ≠ 0) ∧ (k > 0) ∧ (k ≤ 15)) ∧ c = ⟨k⟩ := by
      rw [new] at hnew
      by_cases h : (k % 2 ≠ 0) ∧ (k > 0) ∧ (k ≤ 15)
      · rw [if_pos h] at hnew
        exact ⟨h, (Option.some_injective _ hnew).symm⟩
      · rw [if_neg h] at hnew
        exact absurd hnew (Option.noConfusion)
    obtain ⟨⟨h1, h2, h3⟩, rfl⟩ := hcond
    have hk10 : k ≤ 10 := by
      rcases hds with rfl | rfl
      · rw [run_analysis_cancer] at hne
        dsimp only at hne
        have hle := (classify_sq_ne_none_iff ⟨k⟩ TOY_CANCER_TRAIN
          TOY_CANCER_TARGET pt cancer_len_eq).1 hne
        rw [cancer_train_len] at hle
        exact hle
      · rw [run_analysis_customer] at hne
        dsimp only at hne
        have hle := (classify_sq_ne_none_iff ⟨k⟩ TOY_CUSTOMER_TRAIN
          TOY_CUSTOMER_TARGET pt customer_len_eq).1 hne
        rw [customer_train_len] at hle
        exact hle
    omega

/-- C9 witness: `k = 11` faults on both datasets; `k = 3` classifies
successfully on the cancer dataset. -/
theorem k_gt_ten_classification_faults_witness :
    (run_analysis ⟨11⟩ "cancer" (2.2, 14.0)).2.2 = none ∧
    (run_analysis ⟨11⟩ "customer" (2.2, 14.0)).2.2 = none ∧
    (3 = 1 ∨ 3 = 3 ∨ 3 = 5 ∨ 3 = 7 ∨ 3 = 9) := by
  have h := k_gt_ten_classification_faults
  have hf := h.2.2.1 11 (2.2, 14.0) (by decide)
  refine ⟨hf.1, hf.2, ?_⟩
  refine h.2.2.2 3 ⟨3⟩ (13.9, 1.9) "cancer" (by decide) (Or.inl rfl) ?_
  rw [run_analysis_cancer]
  dsimp only
  have hval : classify_sq ⟨3⟩ TOY_CANCER_TRAIN TOY_CANCER_TARGET (13.9, 1.9) = some 1 := by
    norm_num [classify_sq, sort_and_argsort, calc_sq_dist, sum_sq_diff, TOY_CANCER_TRAIN,
      TOY_CANCER_TARGET, List.insertionSort, List.orderedInsert, List.indexOf, List.findIdx,
      List.findIdx.go, cond_eq_if, beq_iff_eq, lookup_targets, vote]
  rw [hval]
  exact fun hc => Option.noConfusion hc

theorem round2_sqrtQ (s : ℚ) (n : ℕ)
    (h1 : ((2 * (n : ℚ) - 1) / 200) ^ 2 ≤ s)
    (h2 : s < ((2 * (n : ℚ) + 1) / 200) ^ 2) :
    round2 (sqrtQ s) = (n : ℝ) / 100 := by
  have h1R : ((2 * (n : ℝ) - 1) / 200) ^ 2 ≤ ((s : ℚ) : ℝ) := by exact_mod_cast h1
  have h2R : ((s : ℚ) : ℝ) < ((2 * (n : ℝ) + 1) / 200) ^ 2 := by
    have h := (Rat.cast_lt (K := ℝ)).2 h2
    push_cast at h
    exact h
  have hlow : (2 * (n : ℝ) - 1) / 200 ≤ Real.sqrt ((s : ℚ) : ℝ) :=
    Real.le_sqrt_of_sq_le h1R
  have hhigh : Real.sqrt ((s : ℚ) : ℝ) < (2 * (n : ℝ) + 1) / 200 := by
    rw [Real.sqrt_lt' (by positivity)]
    exact h2R
  unfold round2 sqrtQ
  have hfloor : ⌊Real.sqrt ((s : ℚ) : ℝ) * 100 + 1 / 2⌋ = (n : ℤ) := by
    rw [Int.floor_eq_iff]
    constructor
    · push_cast
      linarith
    · push_cast
      linarith
  rw [hfloor]
  push_cast
  ring

theorem round2_sqrtQ_zero (s : ℚ) (h : s = 0) : round2 (sqrtQ s) = 0 := by
  subst h
  unfold round2 sqrtQ
  rw [Rat.cast_zero, Real.sqrt_zero, zero_mul, zero_add]
  have hfloor : ⌊(1 / 2 : ℝ)⌋ = 0 := by
    rw [Int.floor_eq_iff]
    constructor <;> norm_num
  rw [hfloor]
  norm_num

/-- C7: the spec's concrete scenario on the cancer registry entry with
`k = 3`: the distances from query `[15.8, 2.0]` round (to two decimals) to
the listed values, the three nearest indices are `[2, 5, 6]` carrying labels
`[1, 0, 1]`, the call classifies the query as `1`, and the query
`[13.9, 1.9]` is also classified as `1`. -/
theorem cancer_scenario_k3 :
    (calc_euclidean_dist TOY_CANCER_TRAIN (15.8, 2.0)).map round2
      = [18.87, 8.65, 0, 11.31, 4.16, 0.81, 3.40, 11.92, 3.90, 14.02] ∧
    (sort_and_argsort (calc_euclidean_dist TOY_CANCER_TRAIN (15.8, 2.0))).1.take 3
      = [2, 5, 6] ∧
    lookup_targets TOY_CANCER_TARGET
      ((sort_and_argsort (calc_euclidean_dist TOY_CANCER_TRAIN (15.8, 2.0))).1.take 3)
      = some [1, 0, 1] ∧
    (run_analysis ⟨3⟩ "cancer" (15.8, 2.0)).2.2 = some 1 ∧
    (run_analysis ⟨3⟩ "cancer" (13.9, 1.9)).2.2 = some 1 := by
  have hb : (sort_and_argsort (calc_euclidean_dist TOY_CANCER_TRAIN (15.8, 2.0))).1.take 3
      = [2, 5, 6] := by
    rw [sort_and_argsort_dist]
    dsimp only
    have hargsq : (sort_and_argsort (calc_sq_dist TOY_CANCER_TRAIN (15.8, 2.0))).1
        = [2, 5, 6, 8, 4, 1, 3, 7, 9, 0] := by
      norm_num [sort_and_argsort, calc_sq_dist, sum_sq_diff, TOY_CANCER_TRAIN,
        List.insertionSort, List.orderedInsert, List.indexOf, List.findIdx,
        List.findIdx.go, cond_eq_if, beq_iff_eq]
    rw [hargsq]
    rfl
  refine ⟨?_, hb, ?_, ?_, ?_⟩
  · simp only [calc_euclidean_dist, calc_sq_dist, TOY_CANCER_TRAIN, sum_sq_diff,
      List.map_cons, List.map_nil, List.cons.injEq, and_true]
    refine ⟨?_, ?_, ?_, ?_, ?_, ?_, ?_, ?_, ?_, ?_⟩
    · exact (round2_sqrtQ _ 1887 (by norm_num) (by norm_num)).trans (by norm_num)
    · exact (round2_sqrtQ _ 865 (by norm_num) (by norm_num)).trans (by norm_num)
    · exact round2_sqrtQ_zero _ (by norm_num)
    · exact (round2_sqrtQ _ 1131 (by norm_num) (by norm_num)).trans (by norm_num)
    · exact (round2_sqrtQ _ 416 (by norm_num) (by norm_num)).trans (by norm_num)
    · exact (round2_sqrtQ _ 81 (by norm_num) (by norm_num)).trans (by norm_num)
    · exact (round2_sqrtQ _ 340 (by norm_num) (by norm_num)).trans (by norm_num)
    · exact (round2_sqrtQ _ 1192 (by norm_num) (by norm_num)).trans (by norm_num)
    · exact (round2_sqrtQ _ 390 (by norm_num) (by norm_num)).trans (by norm_num)
    · exact (round2_sqrtQ _ 1402 (by norm_num) (by norm_num)).trans (by norm_num)
  · rw [hb]
    decide
  · rw [run_analysis_cancer]
    dsimp only
    norm_num [classify_sq, sort_and_argsort, calc_sq_dist, sum_sq_diff, TOY_CANCER_TRAIN,
      TOY_CANCER_TARGET, List.insertionSort, List.orderedInsert, List.indexOf, List.findIdx,
      List.findIdx.go, cond_eq_if, beq_iff_eq, lookup_targets, vote]
  · rw [run_analysis_cancer]
    dsimp only
    norm_num [classify_sq, sort_and_argsort, calc_sq_dist, sum_sq_diff, TOY_CANCER_TRAIN,
      TOY_CANCER_TARGET, List.insertionSort, List.orderedInsert, List.indexOf, List.findIdx,
      List.findIdx.go, cond_eq_if, beq_iff_eq, lookup_targets, vote]

/-- C10: the NaN-aware model of the pipeline: a query whose second coordinate
is NaN makes every computed distance NaN; sorting such a distance list makes
the very first comparator `unwrap` panic, so `sort_and_argsort` produces no
result and the whole classification call aborts (`none`) instead of
propagating NaN into a returned label. -/
theorem nan_query_aborts :
    calc_euclidean_distF (toF TOY_CANCER_TRAIN) ((some 15.8 : F), (none : F))
      = List.replicate 10 none ∧
    sort_and_argsortF
      (calc_euclidean_distF (toF TOY_CANCER_TRAIN) ((some 15.8 : F), (none : F)))
      = none ∧
    classify_test_pointF ⟨3⟩ (toF TOY_CANCER_TRAIN) TOY_CANCER_TARGET
      ((some 15.8 : F), (none : F)) = none := by
  refine ⟨rfl, rfl, rfl⟩

end Knn
